import Mathlib

/-!
Verification development for the sanic-babel adapter (`sanic_babel/__init__.py`).

The Python module is embedded shallowly: the mutable per-request dictionary and
the process-wide `Babel` instance become an explicit state record that every
stateful function threads; Python dictionary entries that may be absent, or
present with value `None`, are modelled as `Option (Option _)` (outer layer =
key present, inner layer = stored value), so that `request.get(key, None)`
is `Option.join`; a Python exception is an `Option`/`Except` error value.

External collaborators (the babel i18n library, pytz, the `%` operator of
Python) are modelled at the interface the adapter uses, as described in the
comments of each definition.  Timezones are modelled as fixed UTC offsets in
minutes; daylight-saving transitions are outside the scope of the properties
proved here, and for fixed-offset zones `pytz.normalize` is the identity.
-/

namespace SanicBabel

/-- A parsed `babel.Locale`.  The adapter only constructs locales through
`Locale.parse` and compares them for equality (as dictionary keys), so the
model keeps the identifier string. -/
structure Locale where
  ident : String
  deriving DecidableEq, Repr

/-- Model of `babel.Locale.parse`. -/
def Locale.parse (s : String) : Locale := ⟨s⟩

/-- A pytz timezone, modelled as a name plus a fixed UTC offset in minutes. -/
structure Tz where
  name : String
  offset : Int
  deriving DecidableEq, Repr

/-- Model of the pytz timezone database restricted to the zones exercised by
the development: `UTC` and the +2:00 zone the repository tests use. -/
def tzOffset : String → Int
  | "Europe/Vienna" => 120
  | _ => 0

/-- Model of `pytz.timezone`. -/
def timezone (s : String) : Tz := ⟨s, tzOffset s⟩

/-- The `pytz.UTC` singleton. -/
def UTCtz : Tz := ⟨"UTC", 0⟩

/-- A Python `datetime`: wall-clock minutes since an arbitrary epoch plus an
optional attached timezone (`None` = naive). -/
structure PyDateTime where
  wall : Int
  tz : Option Tz
  deriving DecidableEq, Repr

/-- Model of `datetime.replace(tzinfo=t)`: reattach tzinfo, keep wall time. -/
def PyDateTime.replaceTz (d : PyDateTime) (t : Option Tz) : PyDateTime :=
  { d with tz := t }

/-- Model of `datetime.astimezone(t)`.  The adapter always attaches a tzinfo
before calling `astimezone`, so the naive branch (which in CPython would use
the system local time) is unreachable here; it is modelled as UTC. -/
def PyDateTime.astimezone (d : PyDateTime) (t : Tz) : PyDateTime :=
  match d.tz with
  | some cur => ⟨d.wall - cur.offset + t.offset, some t⟩
  | none => ⟨d.wall + t.offset, some t⟩

/-- Model of `tz.normalize`: the identity for fixed-offset zones. -/
def Tz.normalize (_t : Tz) (d : PyDateTime) : PyDateTime := d

/-- Model of `tz.localize`: attach the zone to a naive datetime. -/
def Tz.localize (t : Tz) (d : PyDateTime) : PyDateTime := ⟨d.wall, some t⟩

/-- A value passed as a keyword substitution argument (`**variables`). -/
inductive PyVal where
  | str : String → PyVal
  | int : Int → PyVal
  deriving DecidableEq, Repr

/-- Rendering of a value under the `%s` conversion (Python `str()`). -/
def PyVal.toDisplay : PyVal → String
  | .str s => s
  | .int n => toString n

/-- First binding of a key in a keyword-argument list. -/
def lookupVar (vars : List (String × PyVal)) (k : String) : Option PyVal :=
  (vars.find? (fun p => p.1 == k)).map (·.2)

/-- Model of `dict.setdefault(k, v)`: insert at the end when `k` is absent. -/
def setdefaultVar (vars : List (String × PyVal)) (k : String) (v : PyVal) :
    List (String × PyVal) :=
  if (lookupVar vars k).isSome then vars else vars ++ [(k, v)]

/-- Worker for `pyFormat`, with fuel bounding the recursion (each step consumes
at least one character, so fuel = length of the input suffices). -/
def pyFormatGo : Nat → List Char → List (String × PyVal) → Option String
  | _, [], _ => some ""
  | 0, _ :: _, _ => none
  | fuel + 1, c :: cs, vars =>
    if c = '%' then
      match cs with
      | '%' :: rest =>
        (pyFormatGo fuel rest vars).map (fun t => "%" ++ t)
      | '(' :: rest =>
        let nameCs := rest.takeWhile (fun ch => ch ≠ ')')
        match rest.dropWhile (fun ch => ch ≠ ')') with
        | ')' :: conv :: rest2 =>
          match lookupVar vars (String.mk nameCs), conv with
          | some v, 's' =>
            (pyFormatGo fuel rest2 vars).map (fun t => v.toDisplay ++ t)
          | some (.int n), 'd' =>
            (pyFormatGo fuel rest2 vars).map (fun t => toString n ++ t)
          | _, _ => none
        | _ => none
      | _ => none
    else (pyFormatGo fuel cs vars).map (fun t => String.mk [c] ++ t)

/-- Model of the Python `%` operator with a mapping right-hand side, for the
conversions the adapter relies on: `%%`, `%(name)s`, `%(name)d`.  A reference
to a missing key is a `KeyError` (`none`).  CPython additionally accepts one
unnamed conversion by formatting the mapping itself; no statement below
depends on that case and it is folded into the error result. -/
def pyFormat (s : String) (vars : List (String × PyVal)) : Option String :=
  pyFormatGo s.length s.data vars

/-- A key of a gettext message catalog: optional disambiguation context
(babel joins it to the message id with `CONTEXT_ENCODING`), the message id,
and the plural-form index for entries of pluralised messages. -/
structure MsgKey where
  ctx : Option String
  msgid : String
  idx : Option Nat
  deriving DecidableEq, Repr

/-- A `babel.support.Translations` object as the adapter observes it: the
message dictionary (`_catalog`) and the plural-rule attribute set by the
catalog parser (`none` when the attribute carries no parsed rule, in which
case lookups behave like the default rule, singular iff count = 1). -/
structure Catalog where
  entries : List (MsgKey × String)
  plural : Option (Int → Nat)

/-- The `babel.support.NullTranslations()` object: empty dictionary, no parsed
plural rule, so every lookup falls back to the source string. -/
def nullCatalog : Catalog := ⟨[], none⟩

/-- Dictionary lookup in a merged catalog.  `merge` updates the dictionary in
place, so the entry merged last wins; with catalogs concatenated in merge
order this is the last matching entry. -/
def Catalog.lookup (c : Catalog) (k : MsgKey) : Option String :=
  (c.entries.reverse.find? (fun p => p.1 == k)).map (·.2)

/-- The plural-rule function actually used by lookups: the parsed rule when
present, else the gettext default (index 0 iff the count is 1). -/
def Catalog.pluralAt (c : Catalog) (n : Int) : Nat :=
  match c.plural with
  | some f => f n
  | none => if n = 1 then 0 else 1

/-- Model of `Translations.ugettext`: dictionary lookup falling back to the
message itself. -/
def Catalog.ugettext (c : Catalog) (s : String) : String :=
  (c.lookup ⟨none, s, none⟩).getD s

/-- Model of `Translations.ungettext`: look up the plural form selected by the
plural rule, falling back to singular iff the count is 1. -/
def Catalog.ungettext (c : Catalog) (sg pl : String) (n : Int) : String :=
  match c.lookup ⟨none, sg, some (c.pluralAt n)⟩ with
  | some t => t
  | none => if n = 1 then sg else pl

/-- Model of `Translations.upgettext`: like `ugettext` under a context. -/
def Catalog.upgettext (c : Catalog) (ctx s : String) : String :=
  (c.lookup ⟨some ctx, s, none⟩).getD s

/-- Model of `Translations.unpgettext`: like `ungettext` under a context. -/
def Catalog.unpgettext (c : Catalog) (ctx sg pl : String) (n : Int) : String :=
  match c.lookup ⟨some ctx, sg, some (c.pluralAt n)⟩ with
  | some t => t
  | none => if n = 1 then sg else pl

/-- The return value of a timezone selector hook: either a textual identifier
or an already-resolved timezone object. -/
inductive TzSel where
  | str : String → TzSel
  | tzv : Tz → TzSel

/-- The request dictionary slots the adapter reads and writes.  Each slot is
`Option (Option _)`: `none` = key absent, `some none` = key present holding
`None`, `some (some v)` = key present holding a value. -/
structure RequestCtx where
  babel_locale : Option (Option Locale)
  babel_tzinfo : Option (Option Tz)
  babel_translations : Option (Option Catalog)

/-- The `Babel` instance together with the application state it hangs off the
app object: configuration, the selector hooks, the process-wide per-locale
catalog cache (`app.babel_translations`), and the filesystem as the loader
sees it (for each locale, the result of `support.Translations.load` for each
configured catalog directory in order; `none` models a directory with no
loadable catalog, which babel reports as a `NullTranslations` that `merge`
skips and that, per the specification, contributes nothing to the merge). -/
structure BabelI where
  default_locale : String
  default_timezone : String
  date_formats : String → Option String
  locale_selector_func : Option (RequestCtx → Option String)
  timezone_selector_func : Option (RequestCtx → Option TzSel)
  translation_loads : Locale → List (Option Catalog)
  babel_translations_cache : List (Locale × Catalog)

/-- The whole mutable state a call can touch: the `Babel`/app state and the
current request, `none` when the call happens outside a request. -/
structure GState where
  babel : BabelI
  request : Option RequestCtx

/-- Lookup in the process-wide catalog cache (a dictionary keyed by locale;
fresh inserts are prepended, and the first match wins). -/
def cacheLookup (c : List (Locale × Catalog)) (l : Locale) : Option Catalog :=
  (c.find? (fun p => p.1 == l)).map (·.2)

/-- The `Babel.default_locale` property: parse the configured identifier. -/
def BabelI.defaultLocale (b : BabelI) : Locale := Locale.parse b.default_locale

/-- The `Babel.default_timezone` property: resolve the configured identifier
through pytz. -/
def BabelI.defaultTimezone (b : BabelI) : Tz := timezone b.default_timezone

/-- Model of `get_locale(request)`: `Locale.parse('en')` outside a request;
otherwise the cached `babel_locale` slot when set, else the value produced by
the locale selector hook (falling back to the configured default when the
hook is absent or returns `None`), which is stored into the slot. -/
def get_locale (g : GState) : GState × Locale :=
  match g.request with
  | none => (g, Locale.parse "en")
  | some req =>
    match Option.join req.babel_locale with
    | some locale => (g, locale)
    | none =>
      let locale :=
        match g.babel.locale_selector_func with
        | none => g.babel.defaultLocale
        | some f =>
          match f req with
          | none => g.babel.defaultLocale
          | some rv => Locale.parse rv
      ({ g with request := some { req with babel_locale := some (some locale) } },
       locale)

/-- Model of `get_timezone(request)`: `UTC` outside a request; otherwise the
cached `babel_tzinfo` slot when set, else the value produced by the timezone
selector hook (a string is parsed through pytz, a timezone object passes
through; absence or `None` falls back to the configured default), which is
stored into the slot. -/
def get_timezone (g : GState) : GState × Tz :=
  match g.request with
  | none => (g, UTCtz)
  | some req =>
    match Option.join req.babel_tzinfo with
    | some tz => (g, tz)
    | none =>
      let tz :=
        match g.babel.timezone_selector_func with
        | none => g.babel.defaultTimezone
        | some f =>
          match f req with
          | none => g.babel.defaultTimezone
          | some (.str s) => timezone s
          | some (.tzv t) => t
      ({ g with request := some { req with babel_tzinfo := some (some tz) } }, tz)

/-- One iteration of the catalog-merging loop of `get_translations`: merge
the catalog loaded for one directory into the accumulator (`merge` copies
only the message dictionary, not the plural rule) and then apply the
workaround that reassigns `translations.plural` whenever the loaded catalog
carries the attribute.  A failed load contributes nothing. -/
def mergeStep (acc : Catalog) (c? : Option Catalog) : Catalog :=
  match c? with
  | none => acc
  | some c =>
    let merged : Catalog := ⟨acc.entries ++ c.entries, acc.plural⟩
    if c.plural.isSome then { merged with plural := c.plural } else merged

/-- The whole merging loop of `get_translations`: start from an empty
`support.Translations()` and fold `mergeStep` over the per-directory load
results in order. -/
def mergeTranslations (loads : List (Option Catalog)) : Catalog :=
  loads.foldl mergeStep nullCatalog

/-- Model of `get_translations(request)`: a `NullTranslations` outside a
request; otherwise the cached `babel_translations` slot when set, else the
process-wide cache entry for the resolved locale, else the merged catalog
built from the configured directories, which is stored into both caches. -/
def get_translations (g : GState) : GState × Catalog :=
  match g.request with
  | none => (g, nullCatalog)
  | some req =>
    match Option.join req.babel_translations with
    | some t => (g, t)
    | none =>
      let gl := get_locale g
      let locale := gl.2
      let b := gl.1.babel
      let req1 := (gl.1.request).getD req
      match cacheLookup b.babel_translations_cache locale with
      | some t =>
        (⟨b, some { req1 with babel_translations := some (some t) }⟩, t)
      | none =>
        let t := mergeTranslations (b.translation_loads locale)
        (⟨{ b with babel_translations_cache := (locale, t) :: b.babel_translations_cache },
          some { req1 with babel_translations := some (some t) }⟩, t)

/-- Model of `refresh(request)`: pop each of the three cache keys that is
present, leaving all three absent. -/
def refresh (_req : RequestCtx) : RequestCtx :=
  { babel_locale := none, babel_tzinfo := none, babel_translations := none }

/-- A Python exception raised inside a `with force_locale(...)` block. -/
inductive PyErr where
  | raised : String → PyErr
  deriving DecidableEq, Repr

/-- Model of the `with force_locale(locale, request)` context manager applied
to a block `body` (the code between `yield` points threads the state; the
block may finish normally or raise).  With no request it only yields.  With a
request it saves the registered locale selector hook and the `get`-observed
values of the `babel_translations` and `babel_locale` slots, installs a hook
that always returns the override, writes `None` into both slots, runs the
block, and in the `finally` clause restores the hook and writes the saved
values back (the request dictionary object itself persists through the
block; a model state in which the block discarded it leaves nothing to
restore into). -/
def force_locale {α : Type} (locale : String)
    (body : GState → GState × Except PyErr α) (g : GState) :
    GState × Except PyErr α :=
  match g.request with
  | none => body g
  | some req =>
    let orig_hook := g.babel.locale_selector_func
    let orig_translations := Option.join req.babel_translations
    let orig_locale := Option.join req.babel_locale
    let g1 : GState :=
      { babel := { g.babel with locale_selector_func := some (fun _ => some locale) },
        request := some { req with
          babel_translations := some none, babel_locale := some none } }
    let br := body g1
    let g2 := br.1
    let g3 : GState :=
      { babel := { g2.babel with locale_selector_func := orig_hook },
        request :=
          match g2.request with
          | none => none
          | some r2 => some { r2 with
              babel_translations := some orig_translations,
              babel_locale := some orig_locale } }
    (g3, br.2)

/-- Model of `gettext(string, request, **variables)`.  `get_translations`
never returns `None`, so the `if t is None` fallback in the source is dead
code and has no counterpart here.  A nonempty keyword mapping triggers
percent substitution on the looked-up string; an empty one does not. -/
def gettext (string : String) (vars : List (String × PyVal)) (g : GState) :
    GState × Option String :=
  let gt := get_translations g
  let s := gt.2.ugettext string
  (gt.1, if vars.isEmpty then some s else pyFormat s vars)

/-- Model of `ngettext(singular, plural, num, request, **variables)`: `num`
is inserted into the keyword mapping with `setdefault` before the lookup, so
the mapping is never empty and substitution is always applied. -/
def ngettext (singular plural : String) (num : Int)
    (vars : List (String × PyVal)) (g : GState) : GState × Option String :=
  let vars := setdefaultVar vars "num" (.int num)
  let gt := get_translations g
  let s := gt.2.ungettext singular plural num
  (gt.1, if vars.isEmpty then some s else pyFormat s vars)

/-- Model of `pgettext(context, string, request, **variables)`. -/
def pgettext (context string : String) (vars : List (String × PyVal))
    (g : GState) : GState × Option String :=
  let gt := get_translations g
  let s := gt.2.upgettext context string
  (gt.1, if vars.isEmpty then some s else pyFormat s vars)

/-- Model of `npgettext(context, singular, plural, num, request,
**variables)`. -/
def npgettext (context singular plural : String) (num : Int)
    (vars : List (String × PyVal)) (g : GState) : GState × Option String :=
  let vars := setdefaultVar vars "num" (.int num)
  let gt := get_translations g
  let s := gt.2.unpgettext context singular plural num
  (gt.1, if vars.isEmpty then some s else pyFormat s vars)

/-- Model of `to_user_timezone(datetime, request)`: stamp a naive input as
UTC, then convert into the timezone resolved for the request and normalize. -/
def to_user_timezone (d : PyDateTime) (g : GState) : GState × PyDateTime :=
  let d := if d.tz.isNone then d.replaceTz (some UTCtz) else d
  let gt := get_timezone g
  (gt.1, gt.2.normalize (d.astimezone gt.2))

/-- Model of `to_utc(datetime, request)`: localize a naive input to the
timezone resolved for the request, then convert to UTC and drop tzinfo. -/
def to_utc (d : PyDateTime) (g : GState) : GState × PyDateTime :=
  match d.tz with
  | none =>
    let gt := get_timezone g
    (gt.1, ((gt.2.localize d).astimezone UTCtz).replaceTz none)
  | some _ => (g, (d.astimezone UTCtz).replaceTz none)

/-- The default `Babel.date_formats` mapping (`every `<kind>.<size>` entry is
`None`, every `<kind>` entry is `'medium'`); keys outside the mapping are
collapsed into `none`, which no statement below exercises. -/
def default_date_formats : String → Option String
  | "time" => some "medium"
  | "date" => some "medium"
  | "datetime" => some "medium"
  | _ => none

/-- Model of `_get_format(key, format, request)`: take the configured entry
for the exact kind when no format was given, then map a named size through
the `<kind>.<size>` entry when that entry is set. -/
def _get_format (key : String) (format : Option String) (g : GState) :
    Option String :=
  let formats :=
    match g.request with
    | none => default_date_formats
    | some _ => g.babel.date_formats
  let format :=
    match format with
    | none => formats key
    | some f => some f
  match format with
  | some f =>
    if f ∈ ["short", "medium", "full", "long"] then
      match formats (key ++ "." ++ f) with
      | some rv => some rv
      | none => some f
    else some f
  | none => none

/-- The output of a babel date/time formatter, kept symbolic: the day index
and minute-of-day of the wall-clock value the formatter renders, plus the
format specifier and locale it renders with. -/
structure Rendered where
  day : Int
  minute : Int
  format : Option String
  locale : Locale
  deriving DecidableEq, Repr

/-- Model of `babel.dates.format_datetime(obj, format, tzinfo, locale)`: when
a tzinfo is supplied, a naive input is assumed to be UTC and the instant is
converted into that zone before rendering. -/
def dates_format_datetime (obj : PyDateTime) (format : Option String)
    (locale : Locale) (tzinfo : Option Tz) : Rendered :=
  let d :=
    match tzinfo with
    | none => obj
    | some tz => ((if obj.tz.isNone then obj.replaceTz (some UTCtz) else obj).astimezone tz)
  ⟨d.wall.fdiv 1440, d.wall.emod 1440, format, locale⟩

/-- Model of `babel.dates.format_date(obj, format, locale)`: renders only the
date part of the wall-clock value; it takes no tzinfo. -/
def dates_format_date (obj : PyDateTime) (format : Option String)
    (locale : Locale) : Rendered :=
  ⟨obj.wall.fdiv 1440, 0, format, locale⟩

/-- Model of `babel.dates.format_time(obj, format, tzinfo, locale)`: like
`format_datetime` but renders only the time of day. -/
def dates_format_time (obj : PyDateTime) (format : Option String)
    (locale : Locale) (tzinfo : Option Tz) : Rendered :=
  let d :=
    match tzinfo with
    | none => obj
    | some tz => ((if obj.tz.isNone then obj.replaceTz (some UTCtz) else obj).astimezone tz)
  ⟨0, d.wall.emod 1440, format, locale⟩

/-- The formatter argument `_date_format` receives. -/
inductive DFKind where
  | date
  | datetime
  | time
  deriving DecidableEq, Repr

/-- Model of `_date_format(formatter, obj, format, rebase, request)`: resolve
the locale, and pass the resolved timezone to the formatter unless the
formatter is `dates.format_date` or rebasing is disabled. -/
def _date_format (kind : DFKind) (obj : PyDateTime) (format : Option String)
    (rebase : Bool) (g : GState) : GState × Rendered :=
  let gl := get_locale g
  let locale := gl.2
  match kind with
  | .date => (gl.1, dates_format_date obj format locale)
  | .datetime =>
    if rebase then
      let gt := get_timezone gl.1
      (gt.1, dates_format_datetime obj format locale (some gt.2))
    else (gl.1, dates_format_datetime obj format locale none)
  | .time =>
    if rebase then
      let gt := get_timezone gl.1
      (gt.1, dates_format_time obj format locale (some gt.2))
    else (gl.1, dates_format_time obj format locale none)

/-- Model of `format_datetime(datetime, format, rebase, request)`. -/
def format_datetime (d : PyDateTime) (format : Option String) (rebase : Bool)
    (g : GState) : GState × Rendered :=
  let fmt := _get_format "datetime" format g
  _date_format .datetime d fmt rebase g

/-- Model of `format_date(date, format, rebase, request)` on a `datetime`
input (the `isinstance(date, datetime)` test succeeds): the source calls
`to_user_timezone(date)` without passing the request, so the conversion runs
against no request context. -/
def format_date (d : PyDateTime) (format : Option String) (rebase : Bool)
    (g : GState) : GState × Rendered :=
  let d := if rebase then (to_user_timezone d { g with request := none }).2 else d
  let fmt := _get_format "date" format g
  _date_format .date d fmt rebase g

/-- Model of `format_time(time, format, rebase, request)`. -/
def format_time (d : PyDateTime) (format : Option String) (rebase : Bool)
    (g : GState) : GState × Rendered :=
  let fmt := _get_format "time" format g
  _date_format .time d fmt rebase g

/-- Modelled from the spec: the `LazyString` class lives in
`sanic_babel/speaklater.py`, which is not among the provided sources; spec
sections 3, 4.4 and 9 describe it as a wrapper holding the target translation
function with its captured arguments (the request is supplied later), storing
a memoized result once evaluated.  The wrapped function is one of the two
translation functions the constructors `lazy_gettext` and `lazy_pgettext`
close over. -/
inductive LazyFunc where
  | gettextF : String → List (String × PyVal) → LazyFunc
  | pgettextF : String → String → List (String × PyVal) → LazyFunc
  deriving Repr

/-- Modelled from the spec: applying the wrapped translation function to the
state available at evaluation time. -/
def LazyFunc.apply : LazyFunc → GState → GState × Option String
  | .gettextF s vs, g => gettext s vs g
  | .pgettextF c s vs, g => pgettext c s vs g

/-- Modelled from the spec (section 4.4): the deferred translated string,
holding the wrapped function with its captured arguments and the memoized
result of the last evaluation. -/
structure LazyString where
  fn : LazyFunc
  value : Option String

/-- Model of `lazy_gettext(string, **variables)`: construction performs no
evaluation. -/
def lazy_gettext (string : String) (vars : List (String × PyVal)) :
    LazyString :=
  ⟨.gettextF string vars, none⟩

/-- Model of `lazy_pgettext(context, string, **variables)`. -/
def lazy_pgettext (context string : String)
    (vars : List (String × PyVal)) : LazyString :=
  ⟨.pgettextF context string vars, none⟩

/-- Modelled from the spec: calling the lazy string with a request evaluates
the wrapped function against the supplied context and memoizes the result. -/
def LazyString.call (ls : LazyString) (g : GState) :
    GState × LazyString × Option String :=
  let ar := ls.fn.apply g
  (ar.1, { ls with value := ar.2 }, ar.2)

/-- Modelled from the spec (sections 4.4 and 9): serialization captures the
wrapped function and its captured arguments, never the memoized value. -/
def LazyString.getstate (ls : LazyString) : LazyFunc := ls.fn

/-- Modelled from the spec: deserialization reconstructs an unevaluated
wrapper from the captured function and arguments. -/
def LazyString.setstate (st : LazyFunc) : LazyString := ⟨st, none⟩

/-- A serialize/deserialize round trip of a lazy string. -/
def lazyRoundtrip (ls : LazyString) : LazyString :=
  LazyString.setstate ls.getstate

/-! Shared concrete fixtures used by witnesses and counterexamples. -/

/-- A `Babel` application state with the constructor defaults: locale `en`,
timezone `UTC`, the default format mapping, no hooks, no catalogs. -/
def bEx : BabelI :=
  { default_locale := "en"
    default_timezone := "UTC"
    date_formats := default_date_formats
    locale_selector_func := none
    timezone_selector_func := none
    translation_loads := fun _ => []
    babel_translations_cache := [] }

/-- A fresh request with none of the three cache keys present. -/
def reqEmpty : RequestCtx := ⟨none, none, none⟩

/-- The state of a call made outside any request. -/
def gNoReq : GState := ⟨bEx, none⟩

/-- The state of a call made on a fresh request. -/
def gReq : GState := ⟨bEx, some reqEmpty⟩

/-! Helper lemmas shared between the claim theorems. -/

/-- Formatting a string that contains no percent sign is the identity,
whatever the keyword mapping (worker version). -/
theorem pyFormatGo_no_percent (cs : List Char) (vars : List (String × PyVal)) :
    ∀ fuel : Nat, cs.length ≤ fuel → '%' ∉ cs →
      pyFormatGo fuel cs vars = some (String.mk cs) := by
  induction cs with
  | nil =>
    intro fuel _ _
    cases fuel <;> rfl
  | cons ch t ih =>
    intro fuel hlen hmem
    match fuel with
    | 0 => simp at hlen
    | f + 1 =>
      have hch : ¬ ch = '%' := fun hc => hmem (hc ▸ List.mem_cons_self ch t)
      have ht : '%' ∉ t := fun hm => hmem (List.mem_cons_of_mem ch hm)
      have hlt : t.length ≤ f := by
        simpa [Nat.succ_le_succ_iff] using hlen
      show (if ch = '%' then _ else (pyFormatGo f t vars).map _) = _
      rw [if_neg hch, ih f hlt ht]
      simp [String.mk, List.singleton_append]
      rfl

/-- Formatting a string that contains no percent sign is the identity. -/
theorem pyFormat_no_percent (s : String) (vars : List (String × PyVal))
    (h : '%' ∉ s.data) : pyFormat s vars = some s := by
  unfold pyFormat
  rw [pyFormatGo_no_percent s.data vars s.length (by rw [String.length]) h]

/-- Inserting the `num` default leaves the keyword mapping nonempty. -/
theorem setdefaultVar_ne_nil (vars : List (String × PyVal)) (k : String)
    (v : PyVal) : (setdefaultVar vars k v).isEmpty = false := by
  unfold setdefaultVar
  split
  · cases vars with
    | nil => simp [lookupVar] at *
    | cons a t => rfl
  · cases vars <;> simp

/-- `setdefault` on an empty mapping produces the one-entry mapping. -/
theorem setdefaultVar_nil (k : String) (v : PyVal) :
    setdefaultVar [] k v = [(k, v)] := rfl

/-- Merging a list of failed loads produces the empty catalog. -/
theorem mergeTranslations_all_none (loads : List (Option Catalog))
    (h : ∀ c ∈ loads, c = none) : mergeTranslations loads = nullCatalog := by
  induction loads with
  | nil => rfl
  | cons c t ih =>
    have hc : c = none := h c (List.mem_cons_self c t)
    subst hc
    exact ih (fun c hm => h c (List.mem_cons_of_mem none hm))

/-- Characterization of `get_locale` on a request context: the babel state
is untouched, the locale slot afterwards holds exactly the returned locale,
and the other two slots are untouched. -/
theorem get_locale_shape (b : BabelI) (req : RequestCtx) :
    ∃ req1 : RequestCtx,
      (get_locale ⟨b, some req⟩).1 = ⟨b, some req1⟩ ∧
      Option.join req1.babel_locale = some (get_locale ⟨b, some req⟩).2 ∧
      req1.babel_tzinfo = req.babel_tzinfo ∧
      req1.babel_translations = req.babel_translations := by
  obtain ⟨rl, rt, rtr⟩ := req
  rcases rl with _ | (_ | l)
  · exact ⟨_, rfl, rfl, rfl, rfl⟩
  · exact ⟨_, rfl, rfl, rfl, rfl⟩
  · exact ⟨_, rfl, rfl, rfl, rfl⟩

/-- When the request's catalog slot holds a catalog, `get_translations`
returns it and changes nothing. -/
theorem get_translations_cached_slot (b : BabelI) (req : RequestCtx)
    (t : Catalog) (hs : Option.join req.babel_translations = some t) :
    get_translations ⟨b, some req⟩ = (⟨b, some req⟩, t) := by
  obtain ⟨rl, rt, rtr⟩ := req
  rcases rtr with _ | (_ | t0)
  · simp [Option.join] at hs
  · simp [Option.join] at hs
  · obtain rfl : t0 = t := by simpa [Option.join] using hs
    rfl

/-- Unfolding of `get_translations` on a request whose catalog slot is
unset, in terms of the outcome of the inner `get_locale` call. -/
theorem get_translations_uncached_eq (b : BabelI) (req req1 : RequestCtx)
    (L : Locale) (hs : Option.join req.babel_translations = none)
    (hl : get_locale ⟨b, some req⟩ = (⟨b, some req1⟩, L)) :
    get_translations ⟨b, some req⟩ =
      match cacheLookup b.babel_translations_cache L with
      | some t => (⟨b, some { req1 with babel_translations := some (some t) }⟩, t)
      | none =>
        (⟨{ b with babel_translations_cache :=
              (L, mergeTranslations (b.translation_loads L))
                :: b.babel_translations_cache },
          some { req1 with
                   babel_translations :=
                     some (some (mergeTranslations (b.translation_loads L))) }⟩,
         mergeTranslations (b.translation_loads L)) := by
  obtain ⟨rl, rt, rtr⟩ := req
  rcases rtr with _ | (_ | t0)
  · simp only [get_translations]
    rw [hl]
    rfl
  · simp only [get_translations]
    rw [hl]
    rfl
  · simp [Option.join] at hs

/-! Claim theorems. -/

/-- C10: `force_locale` invoked without a request context is a complete
no-op: it runs the block on the unchanged state and returns its outcome
unchanged, replacing no hook and touching no cache slot, so the override
guarantee holds only when a request context is supplied. -/
theorem force_locale_no_request_noop {α : Type} (locale : String)
    (body : GState → GState × Except PyErr α) (g : GState)
    (h : g.request = none) :
    force_locale locale body g = body g := by
  obtain ⟨b, r⟩ := g
  cases h
  rfl

/-- Witness for C10 at a concrete state and block. -/
theorem force_locale_no_request_noop_witness :
    gNoReq.request = none ∧
      force_locale "de_DE" (fun g => (g, Except.ok (0 : Nat))) gNoReq
        = (gNoReq, Except.ok 0) :=
  ⟨rfl, force_locale_no_request_noop "de_DE" (fun g => (g, Except.ok 0)) gNoReq rfl⟩

/-- C9: for a naive datetime, `to_user_timezone` interprets it as UTC and
returns an aware datetime in the resolved timezone (same instant), and
`to_utc` applied to that result converts back to UTC, drops the tzinfo, and
recovers the original naive datetime exactly. -/
theorem to_utc_to_user_timezone_roundtrip (d : PyDateTime) (g : GState)
    (h : d.tz = none) :
    (to_user_timezone d g).2.tz = some (get_timezone g).2 ∧
    (to_user_timezone d g).2.wall - (get_timezone g).2.offset = d.wall ∧
    (to_utc (to_user_timezone d g).2 (to_user_timezone d g).1).2 = d := by
  obtain ⟨w, dtz⟩ := d
  cases h
  refine ⟨rfl, by simp [to_user_timezone, PyDateTime.replaceTz,
    PyDateTime.astimezone, Tz.normalize, UTCtz], ?_⟩
  simp [to_user_timezone, to_utc, PyDateTime.replaceTz, PyDateTime.astimezone,
    Tz.normalize, UTCtz]

/-- Witness for C9 on a concrete naive datetime under a +2:00 zone. -/
theorem to_utc_to_user_timezone_roundtrip_witness :
    (⟨826, none⟩ : PyDateTime).tz = none ∧
      (to_utc (to_user_timezone ⟨826, none⟩ ⟨{ bEx with default_timezone := "Europe/Vienna" }, some reqEmpty⟩).2
        (to_user_timezone ⟨826, none⟩ ⟨{ bEx with default_timezone := "Europe/Vienna" }, some reqEmpty⟩).1).2
        = (⟨826, none⟩ : PyDateTime) :=
  ⟨rfl, (to_utc_to_user_timezone_roundtrip ⟨826, none⟩
    ⟨{ bEx with default_timezone := "Europe/Vienna" }, some reqEmpty⟩ rfl).2.2⟩

/-- A fresh request under a configuration whose default timezone is the
+2:00 zone `Europe/Vienna`. -/
def gVienna : GState :=
  ⟨{ bEx with default_timezone := "Europe/Vienna" }, some reqEmpty⟩

/-- C5 (evaluation at the failing input): with the resolved timezone at
+2:00, `format_datetime` and `format_time` with rebasing enabled shift the
naive instant 13:46 UTC to the 15:46 wall clock of the resolved zone, as the
claim states; but `format_date` on the naive instant 23:46 UTC renders the
UTC day (day 0) although the resolved zone's wall clock is already on the
next day (day 1), because the source calls `to_user_timezone(date)` without
passing the request, so the date part is never rebased into the resolved
timezone. -/
theorem format_date_not_rebased_to_user_timezone :
    (format_datetime ⟨826, none⟩ none true gVienna).2.minute = 946 ∧
    (format_time ⟨826, none⟩ none true gVienna).2.minute = 946 ∧
    (to_user_timezone ⟨1426, none⟩ gVienna).2.wall.fdiv 1440 = 1 ∧
    (format_date ⟨1426, none⟩ none true gVienna).2.day = 0 := by
  refine ⟨by decide, by decide, by decide, by decide⟩

/-- C8: the effective date/time format is resolved in two steps: a `none`
format is replaced by the configured entry for the exact kind; a named size
among short/medium/full/long is then mapped through the `<kind>.<size>`
entry when that entry is set, and passed through unchanged when it is unset;
any other explicit format string is used unchanged. -/
theorem get_format_two_step_lookup (b : BabelI) (req : RequestCtx)
    (key f : String) :
    (f ∉ ["short", "medium", "full", "long"] →
      _get_format key (some f) ⟨b, some req⟩ = some f) ∧
    (∀ r, f ∈ ["short", "medium", "full", "long"] →
      b.date_formats (key ++ "." ++ f) = some r →
      _get_format key (some f) ⟨b, some req⟩ = some r) ∧
    (f ∈ ["short", "medium", "full", "long"] →
      b.date_formats (key ++ "." ++ f) = none →
      _get_format key (some f) ⟨b, some req⟩ = some f) ∧
    (b.date_formats key = none → _get_format key none ⟨b, some req⟩ = none) ∧
    (∀ v, b.date_formats key = some v →
      _get_format key none ⟨b, some req⟩ = _get_format key (some v) ⟨b, some req⟩) := by
  refine ⟨?_, ?_, ?_, ?_, ?_⟩
  · intro hf
    simp [_get_format, hf]
  · intro r hf hr
    simp [_get_format, hf, hr]
  · intro hf hr
    simp [_get_format, hf, hr]
  · intro hk
    simp [_get_format, hk]
  · intro v hv
    simp [_get_format, hv]

/-- Witness for C8: the default mapping sends a missing format for kind
`datetime` to `medium`, whose alias entry is unset, so `medium` is passed
through; a custom mapping with a set alias entry replaces it. -/
theorem get_format_two_step_lookup_witness :
    _get_format "datetime" none ⟨bEx, some reqEmpty⟩ = some "medium" ∧
    _get_format "datetime" (some "MMMM")
      ⟨bEx, some reqEmpty⟩ = some "MMMM" := by
  constructor
  · have h := get_format_two_step_lookup bEx reqEmpty "datetime" "medium"
    rw [h.2.2.2.2 "medium" rfl, h.2.2.1 (by decide) rfl]
  · exact (get_format_two_step_lookup bEx reqEmpty "datetime" "MMMM").1 (by decide)

/-- C1 fails as stated: `ngettext` called with NO caller-supplied keyword
arguments still applies percent substitution, because it inserts `num` into
the mapping with `setdefault` before translating — here the looked-up plural
source string `%(num)s Apples` comes back as `3 Apples`, not verbatim. -/
theorem ngettext_substitutes_without_caller_arguments :
    (ngettext "%(num)s Apple" "%(num)s Apples" 3 [] gNoReq).2
        = some "3 Apples" ∧
      "3 Apples" ≠ "%(num)s Apples" := by
  exact ⟨by decide, by decide⟩

/-- C1 amended: for `gettext` and `pgettext`, percent substitution is applied
to the looked-up string iff the caller supplied keyword arguments, and with
none supplied the looked-up string is returned verbatim even when it contains
percent escapes; for `ngettext` and `npgettext`, `num` is always inserted
into the keyword mapping with `setdefault`, so percent substitution is always
applied to the looked-up string, with the mapping being exactly `num` plus
whatever the caller supplied. -/
theorem substitution_iff_arguments_amended (g : GState) (s sg pl c : String)
    (n : Int) (vs : List (String × PyVal)) (hvs : vs ≠ []) :
    (gettext s [] g).2 = some ((get_translations g).2.ugettext s) ∧
    (pgettext c s [] g).2 = some ((get_translations g).2.upgettext c s) ∧
    (gettext s vs g).2 = pyFormat ((get_translations g).2.ugettext s) vs ∧
    (pgettext c s vs g).2
      = pyFormat ((get_translations g).2.upgettext c s) vs ∧
    (ngettext sg pl n vs g).2
      = pyFormat ((get_translations g).2.ungettext sg pl n)
          (setdefaultVar vs "num" (.int n)) ∧
    (ngettext sg pl n [] g).2
      = pyFormat ((get_translations g).2.ungettext sg pl n)
          [("num", PyVal.int n)] ∧
    (npgettext c sg pl n [] g).2
      = pyFormat ((get_translations g).2.unpgettext c sg pl n)
          [("num", PyVal.int n)] := by
  have hvs' : vs.isEmpty = false := by
    cases vs with
    | nil => exact absurd rfl hvs
    | cons a t => rfl
  refine ⟨rfl, rfl, ?_, ?_, ?_, ?_, ?_⟩
  · simp [gettext, hvs']
  · simp [pgettext, hvs']
  · simp [ngettext, setdefaultVar_ne_nil]
  · simp [ngettext, setdefaultVar_ne_nil, setdefaultVar_nil]
  · simp [npgettext, setdefaultVar_ne_nil, setdefaultVar_nil]

/-- Witness for C1 amended: concrete calls outside a request, where lookups
fall back to the source string — `gettext` with no arguments keeps
`Test %s` verbatim, with an argument it substitutes, and `ngettext` with no
arguments substitutes the automatic `num`. -/
theorem substitution_iff_arguments_amended_witness :
    (gettext "Test %s" [] gNoReq).2 = some "Test %s" ∧
    (gettext "Test %(name)s" [("name", PyVal.str "test")] gNoReq).2
      = some "Test test" ∧
    (ngettext "%(num)s Apple" "%(num)s Apples" 1 [] gNoReq).2
      = some "1 Apple" := by
  have h1 := substitution_iff_arguments_amended gNoReq "Test %s" "a" "b" "c"
    1 [("name", PyVal.str "test")] (by decide)
  have h2 := substitution_iff_arguments_amended gNoReq "Test %(name)s"
    "%(num)s Apple" "%(num)s Apples" "c" 1 [("name", PyVal.str "test")]
    (by decide)
  refine ⟨?_, ?_, ?_⟩
  · rw [h1.1]
    decide
  · rw [h2.2.2.1]
    decide
  · rw [h2.2.2.2.2.2.1]
    decide

/-- The last successfully loaded catalog source that carries a plural-rule
attribute, in directory order. -/
def lastPluralSource (loads : List (Option Catalog)) : Option Catalog :=
  ((loads.filterMap id).filter (fun c => c.plural.isSome)).getLast?

/-- The plural rule surviving the merging loop is the one of the last loaded
source carrying the attribute, whatever catalog the loop starts from. -/
theorem foldl_mergeStep_plural (loads : List (Option Catalog)) :
    ∀ acc : Catalog,
      (loads.foldl mergeStep acc).plural =
        (lastPluralSource loads).elim acc.plural Catalog.plural := by
  induction loads using List.reverseRecOn with
  | nil => intro acc; rfl
  | append_singleton l x ih =>
    intro acc
    rw [List.foldl_append]
    cases x with
    | none =>
      have hl : lastPluralSource (l ++ [none]) = lastPluralSource l := by
        simp [lastPluralSource]
      rw [hl]
      exact ih acc
    | some c =>
      cases hc : c.plural.isSome with
      | false =>
        have hl : lastPluralSource (l ++ [some c]) = lastPluralSource l := by
          simp [lastPluralSource, hc]
        have hs : (mergeStep (l.foldl mergeStep acc) (some c)).plural
            = (l.foldl mergeStep acc).plural := by
          simp [mergeStep, hc]
        rw [hl]
        simp only [List.foldl_cons, List.foldl_nil]
        rw [hs]
        exact ih acc
      | true =>
        have hl : lastPluralSource (l ++ [some c]) = some c := by
          simp [lastPluralSource, hc, List.filter_append, List.getLast?_concat]
        have hs : (mergeStep (l.foldl mergeStep acc) (some c)).plural
            = c.plural := by
          simp [mergeStep, hc]
        rw [hl]
        simp only [List.foldl_cons, List.foldl_nil]
        rw [hs]
        rfl

/-- A loaded catalog whose plural rule picks index 0 for every count. -/
def catPluralA : Catalog := ⟨[], some (fun _ => 0)⟩

/-- A loaded catalog whose plural rule picks index 1 for every count. -/
def catPluralB : Catalog := ⟨[], some (fun _ => 1)⟩

/-- A state whose configured directories successfully load `catPluralA` then
`catPluralB` for every locale, with both caches empty. -/
def gC2 : GState :=
  ⟨{ bEx with translation_loads := fun _ => [some catPluralA, some catPluralB] },
   some reqEmpty⟩

/-- C2 fails as stated: with two loaded catalog sources carrying different
plural rules, the plural rule of the catalog `get_translations` builds is
the one of the LAST loaded source carrying one (`catPluralB`), not the first
(`catPluralA`): the two disagree at count 5. -/
theorem merged_plural_not_from_first_source :
    (gC2.babel.translation_loads (Locale.parse "en")).head?
        = some (some catPluralA) ∧
      catPluralA.pluralAt 5 = 0 ∧
      (get_translations gC2).2.pluralAt 5 = 1 := by
  exact ⟨rfl, rfl, rfl⟩

/-- C2 amended: the merged catalog built by `get_translations` (on a request
with no cached catalog, for a locale not yet in the process-wide cache) has
exactly the plural rule of the LAST loaded catalog source that carries one;
in particular, whenever at least one loaded source carries a plural rule the
merge does not fall back to the unset default, and with a single
plural-carrying source the claim's first/last distinction vanishes. -/
theorem merged_plural_from_last_source (g : GState) (req : RequestCtx)
    (h1 : g.request = some req)
    (h2 : Option.join req.babel_translations = none)
    (h3 : cacheLookup g.babel.babel_translations_cache (get_locale g).2 = none) :
    (get_translations g).2
        = mergeTranslations (g.babel.translation_loads (get_locale g).2) ∧
    (∀ loads : List (Option Catalog),
      (mergeTranslations loads).plural
          = (lastPluralSource loads).elim none Catalog.plural ∧
      (∀ c, lastPluralSource loads = some c →
        (mergeTranslations loads).plural = c.plural ∧ c.plural.isSome = true)) := by
  constructor
  · obtain ⟨b, r⟩ := g
    cases h1
    simp only [get_translations, h2]
    simp only [get_locale] at h3 ⊢
    cases hj : Option.join req.babel_locale with
    | some locale =>
      rw [hj] at h3
      simp [hj, h3]
    | none =>
      rw [hj] at h3
      simp only [hj] at h3 ⊢
      rw [h3]
  · intro loads
    have hfold := foldl_mergeStep_plural loads nullCatalog
    constructor
    · exact hfold
    · intro c hc
      rw [mergeTranslations, hfold, hc]
      refine ⟨rfl, ?_⟩
      have hmem : c ∈ (loads.filterMap id).filter (fun c => c.plural.isSome) := by
        obtain ⟨hne, heq⟩ := List.mem_getLast?_eq_getLast (x := c) hc
        rw [heq]
        exact List.getLast_mem hne
      simpa using (List.of_mem_filter hmem)

/-- Witness for C2 amended at the concrete two-source state. -/
theorem merged_plural_from_last_source_witness :
    gC2.request = some reqEmpty ∧
      (get_translations gC2).2
        = mergeTranslations (gC2.babel.translation_loads (get_locale gC2).2) := by
  refine ⟨rfl, ?_⟩
  exact (merged_plural_from_last_source gC2 reqEmpty rfl rfl rfl).1

/-- C3: inside a `force_locale` block on a request context, resolving the
locale yields exactly the override, whatever hook is registered and whatever
was cached before; and for EVERY block (finishing normally or raising, and
however it mutates the hook or the cache slots), the state after the block
has the originally registered locale selector hook back, and the request's
`babel_locale` and `babel_translations` slots hold their original
`get`-observed values again. -/
theorem force_locale_override_and_restore (loc : String) (g : GState)
    (req : RequestCtx) (h : g.request = some req) :
    (force_locale loc
        (fun g0 => ((get_locale g0).1, Except.ok (get_locale g0).2)) g).2
      = Except.ok (Locale.parse loc) ∧
    ∀ (body : GState → GState × Except PyErr Unit),
      (force_locale loc body g).1.babel.locale_selector_func
          = g.babel.locale_selector_func ∧
      ∀ r3, (force_locale loc body g).1.request = some r3 →
        Option.join r3.babel_locale = Option.join req.babel_locale ∧
        Option.join r3.babel_translations = Option.join req.babel_translations := by
  obtain ⟨b, r⟩ := g
  cases h
  refine ⟨rfl, ?_⟩
  intro body
  refine ⟨rfl, ?_⟩
  intro r3 h3
  simp only [force_locale] at h3
  split at h3
  · exact absurd h3 (by simp)
  · cases h3
    exact ⟨rfl, rfl⟩

/-- A state with a registered locale hook returning `de_DE` and a request
that already cached the corresponding locale. -/
def gHookDe : GState :=
  ⟨{ bEx with locale_selector_func := some (fun _ => some "de_DE") },
   some { reqEmpty with babel_locale := some (some (Locale.parse "de_DE")) }⟩

/-- Witness for C3 at a concrete state whose hook and cache both point at
`de_DE` while the override asks for `en_US`. -/
theorem force_locale_override_and_restore_witness :
    gHookDe.request
        = some { reqEmpty with babel_locale := some (some (Locale.parse "de_DE")) } ∧
      (force_locale "en_US"
          (fun g0 => ((get_locale g0).1, Except.ok (get_locale g0).2)) gHookDe).2
        = Except.ok (Locale.parse "en_US") :=
  ⟨rfl, (force_locale_override_and_restore "en_US" gHookDe
    { reqEmpty with babel_locale := some (some (Locale.parse "de_DE")) } rfl).1⟩

/-- C4: on a request context each of locale, timezone and translations is
resolved at most once — a second call on the state left by the first call
returns the very pair (state and cached object) of the first call, the
first call having stored the returned object in the request slot — and
`refresh` leaves all three cache keys absent, after which each getter
recomputes from the hooks, the configuration and the process-wide catalog
cache alone. -/
theorem resolution_cached_per_context (g : GState) (req : RequestCtx)
    (h : g.request = some req) :
    get_locale (get_locale g).1 = get_locale g ∧
    get_timezone (get_timezone g).1 = get_timezone g ∧
    get_translations (get_translations g).1 = get_translations g ∧
    ((get_locale g).1.request.bind fun r => Option.join r.babel_locale)
        = some (get_locale g).2 ∧
    ((get_timezone g).1.request.bind fun r => Option.join r.babel_tzinfo)
        = some (get_timezone g).2 ∧
    ((get_translations g).1.request.bind fun r => Option.join r.babel_translations)
        = some (get_translations g).2 ∧
    (refresh req).babel_locale = none ∧
    (refresh req).babel_tzinfo = none ∧
    (refresh req).babel_translations = none ∧
    ((get_locale ⟨g.babel, some (refresh req)⟩).2 =
      match g.babel.locale_selector_func with
      | none => g.babel.defaultLocale
      | some f =>
        match f (refresh req) with
        | none => g.babel.defaultLocale
        | some rv => Locale.parse rv) ∧
    ((get_timezone ⟨g.babel, some (refresh req)⟩).2 =
      match g.babel.timezone_selector_func with
      | none => g.babel.defaultTimezone
      | some f =>
        match f (refresh req) with
        | none => g.babel.defaultTimezone
        | some (.str s) => timezone s
        | some (.tzv t) => t) ∧
    ((get_translations ⟨g.babel, some (refresh req)⟩).2 =
      (cacheLookup g.babel.babel_translations_cache
          (get_locale ⟨g.babel, some (refresh req)⟩).2).getD
        (mergeTranslations (g.babel.translation_loads
          (get_locale ⟨g.babel, some (refresh req)⟩).2))) := by
  obtain ⟨b, r⟩ := g
  cases h
  obtain ⟨rl, rt, rtr⟩ := req
  have hloc : get_locale (get_locale ⟨b, some ⟨rl, rt, rtr⟩⟩).1
      = get_locale ⟨b, some ⟨rl, rt, rtr⟩⟩ := by
    rcases rl with _ | (_ | l) <;> rfl
  have htz : get_timezone (get_timezone ⟨b, some ⟨rl, rt, rtr⟩⟩).1
      = get_timezone ⟨b, some ⟨rl, rt, rtr⟩⟩ := by
    rcases rt with _ | (_ | t0) <;> rfl
  have hsloc : ((get_locale ⟨b, some ⟨rl, rt, rtr⟩⟩).1.request.bind
      fun r => Option.join r.babel_locale)
      = some (get_locale ⟨b, some ⟨rl, rt, rtr⟩⟩).2 := by
    rcases rl with _ | (_ | l) <;> rfl
  have hstz : ((get_timezone ⟨b, some ⟨rl, rt, rtr⟩⟩).1.request.bind
      fun r => Option.join r.babel_tzinfo)
      = some (get_timezone ⟨b, some ⟨rl, rt, rtr⟩⟩).2 := by
    rcases rt with _ | (_ | t0) <;> rfl
  have hstr : ((get_translations ⟨b, some ⟨rl, rt, rtr⟩⟩).1.request.bind
      fun r => Option.join r.babel_translations)
      = some (get_translations ⟨b, some ⟨rl, rt, rtr⟩⟩).2 := by
    rcases rtr with _ | (_ | t0)
    · obtain ⟨req1, h1, _, _, _⟩ := get_locale_shape b ⟨rl, rt, none⟩
      have hl : get_locale ⟨b, some ⟨rl, rt, none⟩⟩
          = (⟨b, some req1⟩, (get_locale ⟨b, some ⟨rl, rt, none⟩⟩).2) := by
        rw [← h1]
      rw [get_translations_uncached_eq b ⟨rl, rt, none⟩ req1 _ rfl hl]
      cases hc : cacheLookup b.babel_translations_cache
          (get_locale ⟨b, some ⟨rl, rt, none⟩⟩).2 <;> simp [hc]
    · obtain ⟨req1, h1, _, _, _⟩ := get_locale_shape b ⟨rl, rt, some none⟩
      have hl : get_locale ⟨b, some ⟨rl, rt, some none⟩⟩
          = (⟨b, some req1⟩, (get_locale ⟨b, some ⟨rl, rt, some none⟩⟩).2) := by
        rw [← h1]
      rw [get_translations_uncached_eq b ⟨rl, rt, some none⟩ req1 _ rfl hl]
      cases hc : cacheLookup b.babel_translations_cache
          (get_locale ⟨b, some ⟨rl, rt, some none⟩⟩).2 <;> simp [hc]
    · rfl
  have htr : get_translations (get_translations ⟨b, some ⟨rl, rt, rtr⟩⟩).1
      = get_translations ⟨b, some ⟨rl, rt, rtr⟩⟩ := by
    cases hg1 : (get_translations ⟨b, some ⟨rl, rt, rtr⟩⟩).1.request with
    | none => rw [hg1] at hstr; simp at hstr
    | some r1 =>
      rw [hg1] at hstr
      simp only [Option.bind] at hstr
      have hG : (get_translations ⟨b, some ⟨rl, rt, rtr⟩⟩).1
          = ⟨(get_translations ⟨b, some ⟨rl, rt, rtr⟩⟩).1.babel, some r1⟩ := by
        rw [← hg1]
      rw [hG, get_translations_cached_slot _ r1 _ hstr, ← hG]
  have hretr : (get_translations ⟨b, some (refresh ⟨rl, rt, rtr⟩)⟩).2 =
      (cacheLookup b.babel_translations_cache
          (get_locale ⟨b, some (refresh ⟨rl, rt, rtr⟩)⟩).2).getD
        (mergeTranslations (b.translation_loads
          (get_locale ⟨b, some (refresh ⟨rl, rt, rtr⟩)⟩).2)) := by
    simp only [refresh]
    obtain ⟨req1, h1, _, _, _⟩ := get_locale_shape b ⟨none, none, none⟩
    have hl : get_locale ⟨b, some ⟨none, none, none⟩⟩
        = (⟨b, some req1⟩, (get_locale ⟨b, some ⟨none, none, none⟩⟩).2) := by
      rw [← h1]
    rw [get_translations_uncached_eq b ⟨none, none, none⟩ req1 _ rfl hl]
    cases hc : cacheLookup b.babel_translations_cache
        (get_locale ⟨b, some ⟨none, none, none⟩⟩).2 <;> simp [hc]
  exact ⟨hloc, htz, htr, hsloc, hstz, hstr, rfl, rfl, rfl, rfl, rfl, hretr⟩

/-- Witness for C4 at a fresh request under the default configuration. -/
theorem resolution_cached_per_context_witness :
    gReq.request = some reqEmpty ∧
      get_locale (get_locale gReq).1 = get_locale gReq :=
  ⟨rfl, (resolution_cached_per_context gReq reqEmpty rfl).1⟩

/-- C6: the translation functions never fail because of a missing context or
an unavailable catalog — outside a request, `get_translations` yields the
no-op `NullTranslations`, whose lookups are identity on the source string,
so `gettext` and `pgettext` return the source string verbatim (even when it
contains percent escapes) and `ngettext`/`npgettext` return the singular or
plural source string selected by the count (verbatim whenever the string
contains no percent sign, since the automatic `num` substitution is then the
identity); and on a request whose locale has no loadable catalog in any
configured directory, the merged catalog is empty and the same verbatim
degradation holds. -/
theorem translations_degrade_to_source (g : GState) (hg : g.request = none)
    (s sg pl c : String) (n : Int)
    (hsg : '%' ∉ sg.data) (hpl : '%' ∉ pl.data) :
    (get_translations g).2 = nullCatalog ∧
    nullCatalog.ugettext s = s ∧
    nullCatalog.ungettext sg pl n = (if n = 1 then sg else pl) ∧
    (gettext s [] g).2 = some s ∧
    (pgettext c s [] g).2 = some s ∧
    (ngettext sg pl n [] g).2 = some (if n = 1 then sg else pl) ∧
    (npgettext c sg pl n [] g).2 = some (if n = 1 then sg else pl) ∧
    ∀ (b2 : BabelI) (req2 : RequestCtx),
      Option.join req2.babel_translations = none →
      b2.babel_translations_cache = [] →
      (∀ l c0, c0 ∈ b2.translation_loads l → c0 = none) →
      (gettext s [] ⟨b2, some req2⟩).2 = some s ∧
      (ngettext sg pl n [] ⟨b2, some req2⟩).2 = some (if n = 1 then sg else pl) := by
  obtain ⟨b, r⟩ := g
  cases hg
  have hng : pyFormat (if n = 1 then sg else pl) [("num", PyVal.int n)]
      = some (if n = 1 then sg else pl) := by
    split
    · exact pyFormat_no_percent sg _ hsg
    · exact pyFormat_no_percent pl _ hpl
  refine ⟨rfl, rfl, rfl, rfl, rfl, hng, hng, ?_⟩
  intro b2 req2 hslot hcache hloads
  obtain ⟨req1, h1, _, _, _⟩ := get_locale_shape b2 req2
  have hl : get_locale ⟨b2, some req2⟩
      = (⟨b2, some req1⟩, (get_locale ⟨b2, some req2⟩).2) := by
    rw [← h1]
  have ht := get_translations_uncached_eq b2 req2 req1 _ hslot hl
  have hmerge : mergeTranslations
      (b2.translation_loads (get_locale ⟨b2, some req2⟩).2) = nullCatalog :=
    mergeTranslations_all_none _ (hloads _)
  have h2 : (get_translations ⟨b2, some req2⟩).2 = nullCatalog := by
    rw [ht, hcache]
    simpa [cacheLookup] using hmerge
  constructor
  · show (if ([] : List (String × PyVal)).isEmpty
        then some ((get_translations ⟨b2, some req2⟩).2.ugettext s)
        else pyFormat ((get_translations ⟨b2, some req2⟩).2.ugettext s) []) = some s
    rw [h2]
    rfl
  · show (if (setdefaultVar [] "num" (.int n)).isEmpty
        then some ((get_translations ⟨b2, some req2⟩).2.ungettext sg pl n)
        else pyFormat ((get_translations ⟨b2, some req2⟩).2.ungettext sg pl n)
          (setdefaultVar [] "num" (.int n))) = some (if n = 1 then sg else pl)
    rw [h2]
    exact hng

/-- Witness for C6 at concrete inputs: outside a request, and on a request
whose configured directory list yields no catalog for any locale. -/
theorem translations_degrade_to_source_witness :
    gNoReq.request = none ∧
      ('%' ∉ "Apple".data) ∧ ('%' ∉ "Apples".data) ∧
      (gettext "Test %s" [] gNoReq).2 = some "Test %s" ∧
      (ngettext "Apple" "Apples" 3 [] gNoReq).2 = some "Apples" ∧
      (gettext "Test %s" [] gReq).2 = some "Test %s" := by
  have h := translations_degrade_to_source gNoReq rfl "Test %s" "Apple"
    "Apples" "c" 3 (by decide) (by decide)
  refine ⟨rfl, by decide, by decide, h.2.2.2.1, ?_, ?_⟩
  · rw [h.2.2.2.2.2.1]
    decide
  · exact (h.2.2.2.2.2.2.2 bEx reqEmpty rfl rfl (by intro l c0 hm; simp [bEx] at hm)).1

/-- A single-entry German catalog translating `Yes` to `Ja`. -/
def catDeYes : Catalog := ⟨[(⟨none, "Yes", none⟩, "Ja")], none⟩

/-- A configuration whose directories carry the German catalog for locale
`de_DE` and nothing for any other locale. -/
def bLazy : BabelI :=
  { bEx with translation_loads :=
      fun l => if l = Locale.parse "de_DE" then [some catDeYes] else [] }

/-- The lazy-evaluation state whose request resolves to locale `de_DE`. -/
def gDe : GState := ⟨{ bLazy with default_locale := "de_DE" }, some reqEmpty⟩

/-- The lazy-evaluation state whose request resolves to locale `en`. -/
def gEn : GState := ⟨bLazy, some reqEmpty⟩

/-- C7: a serialize/deserialize round trip of a lazy translated string
reconstructs it from the wrapped function and captured arguments, not from
the memoized value — the deserialized wrapper is unevaluated, evaluating it
against any context yields exactly what the wrapped translation function
yields on that context (so a context with a different active locale yields
the translation in the new locale, as the concrete `de_DE`/`en` instance
shows), and forcing the round-tripped and the original wrapper under the
same context yields equal strings. -/
theorem lazy_string_roundtrip_reevaluates (s c : String)
    (vs : List (String × PyVal)) (g1 g2 : GState) :
    (lazyRoundtrip ((lazy_gettext s vs).call g1).2.1).value = none ∧
    ((lazyRoundtrip ((lazy_gettext s vs).call g1).2.1).call g2).2.2
        = (gettext s vs g2).2 ∧
    (∀ g0, ((lazyRoundtrip ((lazy_gettext s vs).call g1).2.1).call g0).2.2
        = (((lazy_gettext s vs).call g1).2.1.call g0).2.2) ∧
    (lazyRoundtrip ((lazy_pgettext c s vs).call g1).2.1).value = none ∧
    ((lazyRoundtrip ((lazy_pgettext c s vs).call g1).2.1).call g2).2.2
        = (pgettext c s vs g2).2 ∧
    (∀ g0, ((lazyRoundtrip ((lazy_pgettext c s vs).call g1).2.1).call g0).2.2
        = (((lazy_pgettext c s vs).call g1).2.1.call g0).2.2) ∧
    ((lazy_gettext "Yes" []).call gDe).2.2 = some "Ja" ∧
    ((lazyRoundtrip ((lazy_gettext "Yes" []).call gDe).2.1).call gEn).2.2
        = some "Yes" :=
  ⟨rfl, rfl, fun _ => rfl, rfl, rfl, fun _ => rfl, by decide, by decide⟩

end SanicBabel
